import Mathlib

/-!
Verification of the remote-cmd-relay command lifecycle broker.

Shallow embedding of the Convex backend of `remote-cmd-relay`:
the `commandQueue` table is a list of (id, record) pairs in insertion
order (Convex `_creationTime` ascending), and each mutation / query
handler becomes a pure Lean function over that list.  Timestamps
(`Date.now()`) are passed explicitly.  JavaScript string falsiness
(`!s` is true for `undefined` and `""`) is modelled by `strFalsy`.
-/

namespace RemoteCmdRelay

/-- Lifecycle status of a command (`commandStatusValidator` in schema.ts). -/
inductive CommandStatus
  | pending
  | claimed
  | executing
  | completed
  | failed
  | timeout
deriving DecidableEq, Repr

/-- Target type of a command (`targetTypeValidator` in schema.ts): local or ssh. -/
inductive TargetType
  | localTarget
  | ssh
deriving DecidableEq, Repr

/-- Statuses with no further transitions (`completed`, `failed`, `timeout`). -/
def CommandStatus.isTerminal : CommandStatus → Bool
  | .completed => true
  | .failed => true
  | .timeout => true
  | _ => false

/-- Row of the `commandQueue` table (schema.ts), including the streaming
fields `partialOutput` / `partialStderr` written by `updatePartialOutput`. -/
structure CommandRecord where
  machineId : String
  command : String
  targetType : TargetType
  targetHost : Option String
  targetPort : Option Nat
  targetUsername : Option String
  timeoutMs : Nat
  status : CommandStatus
  claimedBy : Option String
  claimedAt : Option Nat
  output : Option String
  stderr : Option String
  exitCode : Option Int
  error : Option String
  durationMs : Option Nat
  completedAt : Option Nat
  partialOutput : Option String
  partialStderr : Option String
  createdBy : String
  createdAt : Nat
  updatedAt : Nat
deriving DecidableEq, Repr

/-- The `commandQueue` table: (document id, record) pairs in insertion order. -/
abbrev Db := List (Nat × CommandRecord)

/-- Document lookup, `ctx.db.get(id)`. -/
def dbGet (db : Db) (id : Nat) : Option CommandRecord :=
  (List.find? (fun p => p.1 == id) db).map Prod.snd

/-- Document patch, `ctx.db.patch(id, f)`: apply `f` to the record stored at `id`. -/
def dbPatch (db : Db) (id : Nat) (f : CommandRecord → CommandRecord) : Db :=
  List.map (fun p => if p.1 == id then (p.1, f p.2) else p) db

/-- JavaScript falsiness of an optional string: `!s` holds for `undefined` and `""`. -/
def strFalsy : Option String → Bool
  | none => true
  | some s => s == ""

/-- The single business-rule validation (commands.ts `queue`, rpc.ts
`queueRpcCommand`, execHelper.ts `exec` / `execAsync`):
`targetType === "ssh" && (!targetHost || !targetUsername)`. -/
def sshArgsInvalid (targetType : TargetType) (targetHost targetUsername : Option String) : Bool :=
  targetType == .ssh && (strFalsy targetHost || strFalsy targetUsername)

/-- Arguments common to the two command-creating mutations. -/
structure QueueArgs where
  machineId : String
  command : String
  targetType : TargetType
  targetHost : Option String
  targetPort : Option Nat
  targetUsername : Option String
  timeoutMs : Option Nat
  createdBy : String
deriving DecidableEq, Repr

/-- Record inserted by `queue` / `queueRpcCommand`:
`targetPort ?? 22`, `timeoutMs ?? 30000`, status `pending`. -/
def mkQueueRecord (args : QueueArgs) (now : Nat) : CommandRecord :=
  { machineId := args.machineId
    command := args.command
    targetType := args.targetType
    targetHost := args.targetHost
    targetPort := some (args.targetPort.getD 22)
    targetUsername := args.targetUsername
    timeoutMs := args.timeoutMs.getD 30000
    status := .pending
    claimedBy := none
    claimedAt := none
    output := none
    stderr := none
    exitCode := none
    error := none
    durationMs := none
    completedAt := none
    partialOutput := none
    partialStderr := none
    createdBy := args.createdBy
    createdAt := now
    updatedAt := now }

/-- Mutation `commands.queue`: validates the ssh target then inserts a
pending record; throws `"SSH target requires targetHost and targetUsername"`. -/
def queue (db : Db) (args : QueueArgs) (now newId : Nat) : Except String (Db × Nat) :=
  if sshArgsInvalid args.targetType args.targetHost args.targetUsername then
    .error "SSH target requires targetHost and targetUsername"
  else
    .ok (db ++ [(newId, mkQueueRecord args now)], newId)

/-- Result shape of `rpc.queueRpcCommand`. -/
structure QueueRpcResult where
  success : Bool
  commandId : Option Nat
  error : Option String
deriving DecidableEq, Repr

/-- Mutation `rpc.queueRpcCommand`: same validation and insert as `queue`,
but reports the validation failure as a structured result instead of throwing. -/
def queueRpcCommand (db : Db) (args : QueueArgs) (now newId : Nat) : QueueRpcResult × Db :=
  if sshArgsInvalid args.targetType args.targetHost args.targetUsername then
    ({ success := false, commandId := none,
       error := some "SSH target requires targetHost and targetUsername" }, db)
  else
    ({ success := true, commandId := some newId, error := none },
      db ++ [(newId, mkQueueRecord args now)])

/-- Mutation `commands.claim`: throws `"Command not found"`; returns `false`
when the status is not `pending`; otherwise patches to `claimed`. -/
def claim (db : Db) (id : Nat) (claimedBy : String) (now : Nat) : Except String (Bool × Db) :=
  match dbGet db id with
  | none => .error "Command not found"
  | some cmd =>
    if cmd.status != .pending then
      .ok (false, db)
    else
      .ok (true, dbPatch db id fun c =>
        { c with status := .claimed, claimedBy := some claimedBy,
                 claimedAt := some now, updatedAt := now })

/-- Snapshot of the claimed command returned by `relay.claimCommand`
(fields read from the record before the patch). -/
structure ClaimedCmdView where
  id : Nat
  command : String
  targetType : TargetType
  targetHost : Option String
  targetPort : Option Nat
  targetUsername : Option String
  timeoutMs : Nat
deriving DecidableEq, Repr

/-- Outcome of `relay.claimCommand`: `{success:true, command}` or
`{success:false, error}`. -/
inductive ClaimOutcome
  | ok (cmd : ClaimedCmdView)
  | err (msg : String)
deriving DecidableEq, Repr

/-- Mutation `relay.claimCommand`: atomic compare-and-swap on the status.
Not found and not-pending are distinguishable structured errors. -/
def claimCommand (db : Db) (commandId : Nat) (assignmentId : String) (now : Nat) :
    ClaimOutcome × Db :=
  match dbGet db commandId with
  | none => (.err "Command not found", db)
  | some cmd =>
    if cmd.status != .pending then
      (.err "Command is not pending", db)
    else
      (.ok { id := commandId, command := cmd.command, targetType := cmd.targetType,
             targetHost := cmd.targetHost, targetPort := cmd.targetPort,
             targetUsername := cmd.targetUsername, timeoutMs := cmd.timeoutMs },
       dbPatch db commandId fun c =>
         { c with status := .claimed, claimedBy := some assignmentId,
                  claimedAt := some now, updatedAt := now })

/-- Sequential serialization of concurrent `claimCommand` calls: the atomic
store runs one mutation at a time, each seeing the previous state. -/
def claimAll (db : Db) (commandId : Nat) (claimants : List String) (now : Nat) :
    List ClaimOutcome × Db :=
  match claimants with
  | [] => ([], db)
  | c :: rest =>
    let step := claimCommand db commandId c now
    let further := claimAll step.2 commandId rest now
    (step.1 :: further.1, further.2)

/-- Count of successful outcomes in a list of claim outcomes. -/
def countOk (rs : List ClaimOutcome) : Nat :=
  List.length (List.filter (fun r => match r with | .ok _ => true | .err _ => false) rs)

/-- Count of outcomes rejected with the given error message. -/
def countErr (msg : String) (rs : List ClaimOutcome) : Nat :=
  List.length (List.filter (fun r => match r with | .ok _ => false | .err m => m == msg) rs)

/-- Mutation `commands.startExecution`: throws `"Command not found"`,
otherwise unconditionally patches the status to `executing`. -/
def startExecution (db : Db) (id : Nat) (now : Nat) : Except String Db :=
  match dbGet db id with
  | none => .error "Command not found"
  | some _ =>
    .ok (dbPatch db id fun c => { c with status := .executing, updatedAt := now })

/-- Mutation `relay.updatePartialOutput`: reports `{success:false}` when the
command is missing or not in `claimed` / `executing`; otherwise sets the
status to `executing` and overwrites whichever partial fields were supplied. -/
def updatePartialOutput (db : Db) (commandId : Nat)
    (newPartialOutput newPartialStderr : Option String) (now : Nat) : Bool × Db :=
  match dbGet db commandId with
  | none => (false, db)
  | some cmd =>
    if cmd.status != .claimed && cmd.status != .executing then
      (false, db)
    else
      (true, dbPatch db commandId fun c =>
        { c with status := .executing, updatedAt := now
                 partialOutput := match newPartialOutput with
                   | some s => some s
                   | none => c.partialOutput
                 partialStderr := match newPartialStderr with
                   | some s => some s
                   | none => c.partialStderr })

/-- Result fields supplied to `complete` / `submitResult`. -/
structure CompleteArgs where
  success : Bool
  output : Option String
  stderr : Option String
  exitCode : Option Int
  error : Option String
  durationMs : Option Nat
deriving DecidableEq, Repr

/-- Patch applied by `complete` / `submitResult`: status from the caller's
success flag, result fields stored verbatim (unsupplied optionals clear the
stored field, as a Convex patch with an explicit `undefined` value does). -/
def applyResult (args : CompleteArgs) (now : Nat) (c : CommandRecord) : CommandRecord :=
  { c with status := if args.success then .completed else .failed
           output := args.output
           stderr := args.stderr
           exitCode := args.exitCode
           error := args.error
           durationMs := args.durationMs
           completedAt := some now
           updatedAt := now }

/-- Mutation `commands.complete`: throws `"Command not found"`, otherwise
unconditionally records the result (no terminal-state guard). -/
def complete (db : Db) (id : Nat) (args : CompleteArgs) (now : Nat) : Except String Db :=
  match dbGet db id with
  | none => .error "Command not found"
  | some _ => .ok (dbPatch db id (applyResult args now))

/-- Mutation `relay.submitResult`: `{success:false}` when the command is
missing, otherwise unconditionally records the result (no terminal-state
guard). -/
def submitResult (db : Db) (commandId : Nat) (args : CompleteArgs) (now : Nat) : Bool × Db :=
  match dbGet db commandId with
  | none => (false, db)
  | some _ => (true, dbPatch db commandId (applyResult args now))

/-- Predicate selecting the rows read by the pending-command queries:
index `by_machineId_status` at `(machineId, "pending")`. -/
def isPendingFor (machineId : String) (p : Nat × CommandRecord) : Bool :=
  p.2.machineId == machineId && p.2.status == CommandStatus.pending

/-- Shared body of `commands.listPending` and `relay.getPendingCommands`:
rows of the index range `(machineId, "pending")` in ascending creation
order (the table is kept in insertion order), truncated to `n`. -/
def pendingQuery (db : Db) (machineId : String) (n : Nat) : Db :=
  List.take n (List.filter (isPendingFor machineId) db)

/-- Row shape returned by `commands.listPending`. -/
structure ListPendingView where
  id : Nat
  machineId : String
  command : String
  targetType : TargetType
  targetHost : Option String
  targetPort : Option Nat
  targetUsername : Option String
  timeoutMs : Nat
  status : CommandStatus
  createdBy : String
  createdAt : Nat
deriving DecidableEq, Repr

/-- Query `commands.listPending`: up to `limit ?? 10` pending commands of the
machine, oldest first. -/
def listPending (db : Db) (machineId : String) (limit : Option Nat) : List ListPendingView :=
  List.map (fun p =>
      { id := p.1, machineId := p.2.machineId, command := p.2.command,
        targetType := p.2.targetType, targetHost := p.2.targetHost,
        targetPort := p.2.targetPort, targetUsername := p.2.targetUsername,
        timeoutMs := p.2.timeoutMs, status := p.2.status,
        createdBy := p.2.createdBy, createdAt := p.2.createdAt })
    (pendingQuery db machineId (limit.getD 10))

/-- Row shape returned by `relay.getPendingCommands`. -/
structure PendingView where
  id : Nat
  command : String
  targetType : TargetType
  targetHost : Option String
  targetPort : Option Nat
  targetUsername : Option String
  timeoutMs : Nat
  createdAt : Nat
deriving DecidableEq, Repr

/-- Query `relay.getPendingCommands`: the first 10 pending commands of the
machine, oldest first (no `limit` argument in this copy). -/
def getPendingCommands (db : Db) (machineId : String) : List PendingView :=
  List.map (fun p =>
      { id := p.1, command := p.2.command, targetType := p.2.targetType,
        targetHost := p.2.targetHost, targetPort := p.2.targetPort,
        targetUsername := p.2.targetUsername, timeoutMs := p.2.timeoutMs,
        createdAt := p.2.createdAt })
    (pendingQuery db machineId 10)

/-- Row shape returned by `rpc.getCommandResult` in the `found` case. -/
structure CommandResultView where
  status : CommandStatus
  output : Option String
  stderr : Option String
  exitCode : Option Int
  error : Option String
  durationMs : Option Nat
deriving DecidableEq, Repr

/-- Query `rpc.getCommandResult`: `none` models `{found:false}`. -/
def getCommandResult (db : Db) (commandId : Nat) : Option CommandResultView :=
  (dbGet db commandId).map fun cmd =>
    { status := cmd.status, output := cmd.output, stderr := cmd.stderr,
      exitCode := cmd.exitCode, error := cmd.error, durationMs := cmd.durationMs }

/-- JavaScript `s.slice(start)` for a single nonneg-or-negative start index:
a negative start counts from the end, clamped at 0. -/
def jsSlice (s : String) (start : Int) : String :=
  if start < 0 then s.drop ((s.length : Int) + start).toNat
  else s.drop start.toNat

/-- Row shape returned by `rpc.getCommandStream` in the `found` case. -/
structure StreamView where
  status : CommandStatus
  partialOutput : Option String
  partialStderr : Option String
  output : Option String
  stderr : Option String
  exitCode : Option Int
  error : Option String
  done : Bool
deriving DecidableEq, Repr

/-- Query `rpc.getCommandStream`: terminal commands expose only the final
result fields; non-terminal commands expose only the partial fields, with
`partialOutput` sliced from `outputOffset` when that argument is supplied
and the stored partial output is truthy (non-empty). -/
def getCommandStream (db : Db) (commandId : Nat) (outputOffset : Option Int) :
    Option StreamView :=
  match dbGet db commandId with
  | none => none
  | some cmd =>
    let isDone := cmd.status == .completed || cmd.status == .failed ||
      cmd.status == .timeout
    if isDone then
      some { status := cmd.status, partialOutput := none, partialStderr := none,
             output := cmd.output, stderr := cmd.stderr, exitCode := cmd.exitCode,
             error := cmd.error, done := true }
    else
      let sliced := match outputOffset, cmd.partialOutput with
        | some off, some s => if s == "" then some s else some (jsSlice s off)
        | _, po => po
      some { status := cmd.status, partialOutput := sliced,
             partialStderr := cmd.partialStderr, output := none, stderr := none,
             exitCode := none, error := none, done := false }

/-! The RPC façade (execHelper.ts `exec`).  The environment the helper talks
to — the store reached through `ctx.runMutation` / `ctx.runQuery` and the
passage of wall-clock time — is abstracted as an oracle giving, for each
attempt number, the outcome of that attempt's queue call and the finite
sequence of poll responses observed before the attempt's local deadline
(`timeoutMs`) expires; an exhausted poll list means the deadline passed. -/

/-- Outcome of one `ctx.runQuery(getCommandResult)` call as seen by `exec`:
the transport throws, or the query returns `{found:false}`, or it returns a
result row. -/
inductive PollResponse
  | throwErr (msg : String)
  | notFound
  | found (res : CommandResultView)
deriving DecidableEq, Repr

/-- Outcome of one `ctx.runMutation(queueRpcCommand)` call as seen by `exec`. -/
inductive QueueResponse
  | throwErr (msg : String)
  | result (r : QueueRpcResult)
deriving DecidableEq, Repr

/-- Environment of one attempt of the `exec` retry loop. -/
structure Attempt where
  queueResp : QueueResponse
  polls : List PollResponse
deriving Repr

/-- Value returned by `exec` (interface `ExecResult`); unset optional
fields are `none`. -/
structure ExecResult where
  success : Bool
  output : Option String
  stderr : Option String
  exitCode : Option Int
  error : Option String
  durationMs : Option Nat
  timedOut : Option Bool
  attempts : Option Nat
deriving DecidableEq, Repr

/-- Resolution of the polling loop of one attempt: either `exec` returns
`r` now, or control falls through to the attempt's RPC-timeout block
(deadline elapsed, or a retryable poll error broke out of the loop)
carrying the updated `lastError`. -/
inductive InnerOutcome
  | ret (r : ExecResult)
  | toTimeout (lastError : Option String)
deriving DecidableEq, Repr

/-- Polling loop of `exec` (the inner `while` of execHelper.ts), for attempt
number `attempt`: not-found and relay-reported `timeout` return immediately
and are never retried; `completed` / `failed` return the final result with
`success = (status == completed) && (exitCode == 0 || exitCode == undefined)`;
a thrown poll error either breaks to the timeout block (when retryable with
attempts remaining) or returns a polling failure. -/
def pollLoop (shouldRetry : String → Nat → Bool) (retries attempt : Nat)
    (lastError : Option String) : List PollResponse → InnerOutcome
  | [] => .toTimeout lastError
  | p :: rest =>
    match p with
    | .throwErr msg =>
      if attempt ≤ retries && shouldRetry msg attempt then
        .toTimeout (some msg)
      else
        .ret { success := false, output := none, stderr := none, exitCode := none,
               error := some ("Polling failed: " ++ msg), durationMs := none,
               timedOut := none, attempts := some attempt }
    | .notFound =>
      .ret { success := false, output := none, stderr := none, exitCode := none,
             error := some "Command not found", durationMs := none,
             timedOut := none, attempts := some attempt }
    | .found res =>
      if res.status == .completed || res.status == .failed then
        .ret { success := res.status == .completed &&
                 (res.exitCode == some 0 || res.exitCode == none),
               output := res.output, stderr := res.stderr, exitCode := res.exitCode,
               error := res.error, durationMs := res.durationMs,
               timedOut := none, attempts := some attempt }
      else if res.status == .timeout then
        .ret { success := false, output := none, stderr := none, exitCode := none,
               error := some "Command execution timed out on relay", durationMs := none,
               timedOut := some true, attempts := some attempt }
      else
        pollLoop shouldRetry retries attempt lastError rest

/-- Message of the synthetic local-deadline error of `exec`. -/
def rpcTimeoutMsg (timeoutMs : Nat) : String :=
  "RPC timeout: command did not complete within " ++ toString timeoutMs ++ "ms"

/-- Retry loop of `exec` (the outer `while (attempt <= retries)` of
execHelper.ts).  `attemptsMade` is the value of the `attempt` counter at the
top of the loop; `fuel` keeps the recursion structural and equals
`retries + 1 - attemptsMade` at every call, so the `fuel = 0` base case is
exactly the loop condition failing and returns the exhausted-retries result. -/
def execGo (shouldRetry : String → Nat → Bool) (retries timeoutMs : Nat)
    (oracle : Nat → Attempt) : Nat → Nat → Option String → ExecResult
  | 0, attemptsMade, lastError =>
    { success := false, output := none, stderr := none, exitCode := none,
      error := some (lastError.getD "All retry attempts failed"), durationMs := none,
      timedOut := none, attempts := some attemptsMade }
  | fuel + 1, attemptsMade, lastError =>
    let attempt := attemptsMade + 1
    let att := oracle attempt
    match att.queueResp with
    | .throwErr msg =>
      if attempt ≤ retries && shouldRetry msg attempt then
        execGo shouldRetry retries timeoutMs oracle fuel attempt (some msg)
      else
        { success := false, output := none, stderr := none, exitCode := none,
          error := some msg, durationMs := none, timedOut := none,
          attempts := some attempt }
    | .result q =>
      if !q.success || q.commandId == none then
        let emsg := q.error.getD "Failed to queue command"
        if attempt ≤ retries && shouldRetry emsg attempt then
          execGo shouldRetry retries timeoutMs oracle fuel attempt (some emsg)
        else
          { success := false, output := none, stderr := none, exitCode := none,
            error := some emsg, durationMs := none, timedOut := none,
            attempts := some attempt }
      else
        match pollLoop shouldRetry retries attempt lastError att.polls with
        | .ret r => r
        | .toTimeout _ =>
          -- the lastError set by a retryable poll throw is dead in the source:
          -- the timeout block below either overwrites it or returns without it
          if attempt ≤ retries && shouldRetry (rpcTimeoutMsg timeoutMs) attempt then
            execGo shouldRetry retries timeoutMs oracle fuel attempt
              (some (rpcTimeoutMsg timeoutMs))
          else
            { success := false, output := none, stderr := none, exitCode := none,
              error := some (rpcTimeoutMsg timeoutMs), durationMs := none,
              timedOut := some true, attempts := some attempt }

/-- Options of `exec` that influence its control flow in the model. -/
structure ExecOptions where
  targetType : TargetType
  targetHost : Option String
  targetUsername : Option String
  timeoutMs : Option Nat
  retries : Option Nat
deriving Repr

/-- Helper `exec` of execHelper.ts: validates the ssh target locally before
any storage call (a validation failure returns at once, with no attempt
made), then runs up to `retries + 1` attempts of queue-then-poll. -/
def exec (opts : ExecOptions) (shouldRetry : String → Nat → Bool)
    (oracle : Nat → Attempt) : ExecResult :=
  if sshArgsInvalid opts.targetType opts.targetHost opts.targetUsername then
    { success := false, output := none, stderr := none, exitCode := none,
      error := some "SSH target requires targetHost and targetUsername",
      durationMs := none, timedOut := none, attempts := none }
  else
    execGo shouldRetry (opts.retries.getD 0) (opts.timeoutMs.getD 30000) oracle
      (opts.retries.getD 0 + 1) 0 none

/-- Poll responses that make the polling loop return or break out; a `found`
response with a non-terminal status is skipped and polling continues. -/
def PollResponse.isDeciding : PollResponse → Bool
  | .throwErr _ => true
  | .notFound => true
  | .found res => res.status == .completed || res.status == .failed ||
      res.status == .timeout

/-- Record as patched by a successful claim. -/
def claimPatch (a : String) (now : Nat) (c : CommandRecord) : CommandRecord :=
  { c with status := .claimed, claimedBy := some a, claimedAt := some now,
           updatedAt := now }

/-- Queue arguments with the target switched to ssh and the given host and
username fields. -/
def withSshTarget (base : QueueArgs) (ho uo : Option String) : QueueArgs :=
  { base with targetType := .ssh, targetHost := ho, targetUsername := uo }

/-- Record as patched by `startExecution`. -/
def executingPatch (now : Nat) (c : CommandRecord) : CommandRecord :=
  { c with status := .executing, updatedAt := now }

/-! Concrete sample data used by witnesses and counterexamples. -/

/-- Arguments of a plain local command. -/
def exArgsLocal : QueueArgs :=
  { machineId := "m1", command := "echo hi", targetType := .localTarget,
    targetHost := none, targetPort := none, targetUsername := none,
    timeoutMs := none, createdBy := "u1" }

/-- Freshly queued pending record. -/
def exPendingRec : CommandRecord := mkQueueRecord exArgsLocal 1

/-- Store holding one pending command with id 0. -/
def exDbPending : Db := [(0, exPendingRec)]

/-- Successful result as recorded by `complete`. -/
def exOkArgs : CompleteArgs :=
  { success := true, output := some "hi", stderr := none, exitCode := some 0,
    error := none, durationMs := some 5 }

/-- Failing result with stderr, as submitted by a relay. -/
def exFailArgs : CompleteArgs :=
  { success := false, output := none, stderr := some "boom", exitCode := some 1,
    error := some "boom", durationMs := none }

/-- A command that has reached the terminal state `completed`. -/
def exCompletedRec : CommandRecord := applyResult exOkArgs 10 exPendingRec

/-- Store holding one completed command with id 0. -/
def exDbTerminal : Db := [(0, exCompletedRec)]

/-- Poll row for a command still executing. -/
def exExecutingView : CommandResultView :=
  { status := .executing, output := none, stderr := none, exitCode := none,
    error := none, durationMs := none }

/-- Poll row for a command that completed with exit code 0. -/
def exCompletedView : CommandResultView :=
  { status := .completed, output := some "hi", stderr := none, exitCode := some 0,
    error := none, durationMs := some 5 }

/-- Exec environment: queueing succeeds and the command completes on the
second poll. -/
def exOracleTerminal : Nat → Attempt := fun _ =>
  { queueResp := .result { success := true, commandId := some 0, error := none },
    polls := [.found exExecutingView, .found exCompletedView] }

/-- Exec environment: queueing succeeds and the first poll reports
`{found:false}`. -/
def exOracleNotFound : Nat → Attempt := fun _ =>
  { queueResp := .result { success := true, commandId := some 0, error := none },
    polls := [.found exExecutingView, .notFound] }

/-- Successful queueing outcome used by the exec oracles. -/
def exQueueOk : QueueRpcResult := { success := true, commandId := some 0, error := none }

/-- A second pending command queued later (creation time 2). -/
def exPendingRec2 : CommandRecord := mkQueueRecord { exArgsLocal with command := "echo 2" } 2

/-- Store holding two pending commands for the same machine, in creation
order. -/
def exDbTwo : Db := [(0, exPendingRec), (1, exPendingRec2)]

/-- Stream view of the completed sample command. -/
def exStreamViewT : StreamView :=
  { status := .completed, partialOutput := none, partialStderr := none,
    output := some "hi", stderr := none, exitCode := some 0, error := none,
    done := true }

/-- An executing command that has streamed some partial output. -/
def exExecRec : CommandRecord :=
  { exPendingRec with
      status := .executing
      partialOutput := some "abcdef"
      partialStderr := some "err" }

/-- Store holding the executing command with id 0. -/
def exDbExec : Db := [(0, exExecRec)]

/-- Exec options of a local command with three retries configured. -/
def exOptsR3 : ExecOptions :=
  { targetType := .localTarget, targetHost := none, targetUsername := none,
    timeoutMs := none, retries := some 3 }

/-- Exec options of a local command with five retries configured. -/
def exOptsR5 : ExecOptions :=
  { targetType := .localTarget, targetHost := none, targetUsername := none,
    timeoutMs := none, retries := some 5 }

/-! Helper lemmas about the store primitives. -/

theorem dbGet_dbPatch_self (db : Db) (id : Nat) (f : CommandRecord → CommandRecord) :
    dbGet (dbPatch db id f) id = (dbGet db id).map f := by
  induction db with
  | nil => rfl
  | cons p rest ih =>
    cases hb : (p.1 == id) with
    | false =>
      have hne : ¬ p.1 = id := by simpa using hb
      have hpatch : dbPatch (p :: rest) id f = p :: dbPatch rest id f := by
        simp [dbPatch, hne]
      unfold dbGet
      rw [hpatch, List.find?_cons_of_neg, List.find?_cons_of_neg]
      · exact ih
      · simp [hb]
      · simp [hb]
    | true =>
      have heq : p.1 = id := by simpa using hb
      have hpatch : dbPatch (p :: rest) id f = (p.1, f p.2) :: dbPatch rest id f := by
        simp [dbPatch, heq]
      unfold dbGet
      rw [hpatch, List.find?_cons_of_pos, List.find?_cons_of_pos]
      · rfl
      · exact hb
      · exact hb

theorem claimCommand_not_pending (db : Db) (id : Nat) (a : String) (now : Nat)
    (cmd : CommandRecord) (hget : dbGet db id = some cmd)
    (hst : cmd.status ≠ .pending) :
    claimCommand db id a now = (.err "Command is not pending", db) := by
  simp [claimCommand, hget, bne_iff_ne, hst]

theorem claimAll_stuck (db : Db) (id : Nat) (cs : List String) (now : Nat)
    (cmd : CommandRecord) (hget : dbGet db id = some cmd)
    (hst : cmd.status ≠ .pending) :
    claimAll db id cs now = (List.map (fun _ => .err "Command is not pending") cs, db) := by
  induction cs with
  | nil => rfl
  | cons c rest ih =>
    simp [claimAll, claimCommand_not_pending db id c now cmd hget hst, ih]

theorem countOk_err_map (cs : List String) :
    countOk (List.map (fun _ => ClaimOutcome.err "Command is not pending") cs) = 0 := by
  simp [countOk, List.filter_map]

theorem countErr_err_map (cs : List String) :
    countErr "Command is not pending"
      (List.map (fun _ => ClaimOutcome.err "Command is not pending") cs) = cs.length := by
  simp [countErr, List.filter_map]

theorem claimCommand_pending (db : Db) (id : Nat) (a : String) (now : Nat)
    (cmd : CommandRecord) (hget : dbGet db id = some cmd)
    (hst : cmd.status = .pending) :
    claimCommand db id a now =
      (.ok { id := id, command := cmd.command, targetType := cmd.targetType,
             targetHost := cmd.targetHost, targetPort := cmd.targetPort,
             targetUsername := cmd.targetUsername, timeoutMs := cmd.timeoutMs },
       dbPatch db id (claimPatch a now)) := by
  simp only [claimCommand, hget, hst]
  rfl

theorem claimAll_pending (db : Db) (id : Nat) (c : String) (rest : List String)
    (now : Nat) (cmd : CommandRecord) (hget : dbGet db id = some cmd)
    (hst : cmd.status = .pending) :
    (claimAll db id (c :: rest) now).1 =
      .ok { id := id, command := cmd.command, targetType := cmd.targetType,
            targetHost := cmd.targetHost, targetPort := cmd.targetPort,
            targetUsername := cmd.targetUsername, timeoutMs := cmd.timeoutMs } ::
        List.map (fun _ => ClaimOutcome.err "Command is not pending") rest := by
  have hstep := claimCommand_pending db id c now cmd hget hst
  have hget2 : dbGet (dbPatch db id (claimPatch c now)) id =
      some (claimPatch c now cmd) := by
    rw [dbGet_dbPatch_self, hget]
    rfl
  have hstuck := claimAll_stuck (dbPatch db id (claimPatch c now)) id rest now
    (claimPatch c now cmd) hget2 (by simp [claimPatch])
  simp [claimAll, hstep, hstuck]

/-- C1: the claim mutation transitions a command to `claimed` — recording the
claimant id and a claim timestamp — if and only if its current state is
exactly `pending`; a claim on a nonexistent command id yields the
distinguishable outcome `"Command not found"`; and of N claim calls with
distinct claimant ids serialized by the atomic store against a pending
command, exactly one succeeds and the other N−1 are rejected with the
not-pending outcome `"Command is not pending"`. -/
theorem claim_atomic_exclusivity (db : Db) (id : Nat) (a : String) (now : Nat)
    (claimants : List String) :
    (dbGet db id = none →
       claimCommand db id a now = (.err "Command not found", db)) ∧
    (∀ cmd, dbGet db id = some cmd → cmd.status ≠ .pending →
       claimCommand db id a now = (.err "Command is not pending", db)) ∧
    (∀ cmd, dbGet db id = some cmd → cmd.status = .pending →
       (claimCommand db id a now).1 =
         .ok { id := id, command := cmd.command, targetType := cmd.targetType,
               targetHost := cmd.targetHost, targetPort := cmd.targetPort,
               targetUsername := cmd.targetUsername, timeoutMs := cmd.timeoutMs } ∧
       dbGet (claimCommand db id a now).2 id = some (claimPatch a now cmd)) ∧
    (∀ cmd, dbGet db id = some cmd → cmd.status = .pending →
       claimants ≠ [] → claimants.Nodup →
       countOk (claimAll db id claimants now).1 = 1 ∧
       countErr "Command is not pending" (claimAll db id claimants now).1 =
         claimants.length - 1) := by
  refine ⟨fun hnone => by simp [claimCommand, hnone], ?_, ?_, ?_⟩
  · intro cmd hget hst
    exact claimCommand_not_pending db id a now cmd hget hst
  · intro cmd hget hst
    rw [claimCommand_pending db id a now cmd hget hst]
    refine ⟨rfl, ?_⟩
    rw [dbGet_dbPatch_self, hget]
    rfl
  · intro cmd hget hst hne _
    match claimants, hne with
    | c :: rest, _ =>
      rw [claimAll_pending db id c rest now cmd hget hst]
      constructor
      · rw [show countOk (ClaimOutcome.ok _ ::
            List.map (fun _ => ClaimOutcome.err "Command is not pending") rest) =
            countOk (List.map (fun _ => ClaimOutcome.err "Command is not pending") rest) + 1
          from by simp [countOk, List.filter]]
        rw [countOk_err_map]
      · rw [show countErr "Command is not pending" (ClaimOutcome.ok _ ::
            List.map (fun _ => ClaimOutcome.err "Command is not pending") rest) =
            countErr "Command is not pending"
              (List.map (fun _ => ClaimOutcome.err "Command is not pending") rest)
          from by simp [countErr, List.filter]]
        rw [countErr_err_map]
        simp

/-- C1 witness: in a store holding one pending command, three serialized
claims by distinct relays produce exactly one success and two not-pending
rejections. -/
theorem claim_atomic_exclusivity_witness :
    countOk (claimAll exDbPending 0 ["r1", "r2", "r3"] 5).1 = 1 ∧
    countErr "Command is not pending" (claimAll exDbPending 0 ["r1", "r2", "r3"] 5).1 =
      ["r1", "r2", "r3"].length - 1 :=
  (claim_atomic_exclusivity exDbPending 0 "r1" 5 ["r1", "r2", "r3"]).2.2.2
    exPendingRec (by decide) (by decide) (by decide) (by decide)

/-- C2 counterexample: `startExecution` on a command whose status is the
terminal `completed` is accepted and changes the stored status to
`executing`, so a MarkExecuting call does corrupt a terminal record. -/
theorem startExecution_corrupts_terminal :
    (dbGet exDbTerminal 0).map CommandRecord.status = some .completed ∧
    (startExecution exDbTerminal 0 99).toOption.bind
        (fun db2 => (dbGet db2 0).map CommandRecord.status) = some .executing := by
  decide

/-- C2 (amended): once a command's status is terminal, `claimCommand`,
`claim` and `updatePartialOutput` reject the call and leave the store — and
hence the status — unchanged; `startExecution`, however, patches the status
of any found command, terminal included, to `executing`. -/
theorem terminal_status_stability (db : Db) (id : Nat) (a : String)
    (now : Nat) (po pe : Option String) (cmd : CommandRecord)
    (hget : dbGet db id = some cmd) (hterm : cmd.status.isTerminal = true) :
    claimCommand db id a now = (.err "Command is not pending", db) ∧
    claim db id a now = .ok (false, db) ∧
    updatePartialOutput db id po pe now = (false, db) ∧
    startExecution db id now = .ok (dbPatch db id (executingPatch now)) ∧
    dbGet (dbPatch db id (executingPatch now)) id = some (executingPatch now cmd) ∧
    (executingPatch now cmd).status = .executing := by
  have hnp : cmd.status ≠ .pending := by
    intro h
    rw [h] at hterm
    simp [CommandStatus.isTerminal] at hterm
  refine ⟨claimCommand_not_pending db id a now cmd hget hnp, ?_, ?_, ?_, ?_, rfl⟩
  · simp [claim, hget, bne_iff_ne, hnp]
  · have hnc : (cmd.status != .claimed && cmd.status != .executing) = true := by
      cases hs : cmd.status <;> simp_all [CommandStatus.isTerminal]
    simp [updatePartialOutput, hget, hnc]
  · simp only [startExecution, hget]
    rfl
  · rw [dbGet_dbPatch_self, hget]
    rfl

/-- C2 witness: the amended statement at a store holding one completed
command. -/
theorem terminal_status_stability_witness :
    claimCommand exDbTerminal 0 "r9" 99 = (.err "Command is not pending", exDbTerminal) ∧
    claim exDbTerminal 0 "r9" 99 = .ok (false, exDbTerminal) ∧
    updatePartialOutput exDbTerminal 0 (some "x") none 99 = (false, exDbTerminal) ∧
    startExecution exDbTerminal 0 99 = .ok (dbPatch exDbTerminal 0 (executingPatch 99)) ∧
    dbGet (dbPatch exDbTerminal 0 (executingPatch 99)) 0 =
      some (executingPatch 99 exCompletedRec) ∧
    (executingPatch 99 exCompletedRec).status = .executing :=
  terminal_status_stability exDbTerminal 0 "r9" 99 (some "x") none exCompletedRec
    (by decide) (by decide)

/-- C3 counterexample: a second `complete` call on an already-completed
command is accepted: it flips the stored terminal status from `completed`
to `failed` and overwrites the previously recorded result fields. -/
theorem complete_not_final :
    (dbGet exDbTerminal 0).map (fun c => (c.status, c.output)) =
      some (CommandStatus.completed, some "hi") ∧
    (complete exDbTerminal 0 exFailArgs 99).toOption.bind
        (fun db2 => (dbGet db2 0).map (fun c => (c.status, c.output, c.stderr))) =
      some (CommandStatus.failed, none, some "boom") := by
  decide

/-- C3 (amended): neither `complete` nor `submitResult` enforces finality:
a subsequent call on a command whose result is already terminal is accepted
and overwrites the recorded result fields and the terminal status verbatim
(last write wins). -/
theorem complete_last_write_wins (db : Db) (id : Nat) (args : CompleteArgs)
    (now : Nat) (cmd : CommandRecord) (hget : dbGet db id = some cmd)
    (_hterm : cmd.status.isTerminal = true) :
    complete db id args now = .ok (dbPatch db id (applyResult args now)) ∧
    dbGet (dbPatch db id (applyResult args now)) id = some (applyResult args now cmd) ∧
    (submitResult db id args now).1 = true ∧
    dbGet (submitResult db id args now).2 id = some (applyResult args now cmd) ∧
    (applyResult args now cmd).status =
      (if args.success then CommandStatus.completed else .failed) ∧
    (applyResult args now cmd).output = args.output ∧
    (applyResult args now cmd).stderr = args.stderr ∧
    (applyResult args now cmd).exitCode = args.exitCode := by
  refine ⟨?_, ?_, ?_, ?_, rfl, rfl, rfl, rfl⟩
  · simp [complete, hget]
  · rw [dbGet_dbPatch_self, hget]
    rfl
  · simp [submitResult, hget]
  · simp only [submitResult, hget]
    rw [dbGet_dbPatch_self, hget]
    rfl

/-- C3 witness: the amended statement, overwriting a completed record with a
failure result. -/
theorem complete_last_write_wins_witness :
    complete exDbTerminal 0 exFailArgs 99 =
      .ok (dbPatch exDbTerminal 0 (applyResult exFailArgs 99)) ∧
    dbGet (dbPatch exDbTerminal 0 (applyResult exFailArgs 99)) 0 =
      some (applyResult exFailArgs 99 exCompletedRec) ∧
    (submitResult exDbTerminal 0 exFailArgs 99).1 = true ∧
    dbGet (submitResult exDbTerminal 0 exFailArgs 99).2 0 =
      some (applyResult exFailArgs 99 exCompletedRec) ∧
    (applyResult exFailArgs 99 exCompletedRec).status =
      (if exFailArgs.success then CommandStatus.completed else .failed) ∧
    (applyResult exFailArgs 99 exCompletedRec).output = exFailArgs.output ∧
    (applyResult exFailArgs 99 exCompletedRec).stderr = exFailArgs.stderr ∧
    (applyResult exFailArgs 99 exCompletedRec).exitCode = exFailArgs.exitCode :=
  complete_last_write_wins exDbTerminal 0 exFailArgs 99 exCompletedRec
    (by decide) (by decide)

/-- C4: for the four combinations of targetHost / targetUsername present or
absent with an ssh target, each command-creating entry point — `queue`,
`queueRpcCommand`, and the RPC façade's `exec` — rejects exactly the three
combinations missing (or empty, per JavaScript falsiness) at least one
field, all with the identical error string
`"SSH target requires targetHost and targetUsername"`; `exec` validates
before any storage call, so the failure is identical under any environment
oracle and records no queue attempt, regardless of the configured retries. -/
theorem ssh_validation_symmetry (db : Db) (now newId : Nat) (base : QueueArgs)
    (ho uo : Option String) (tms rts : Option Nat)
    (sr : String → Nat → Bool) (oracle oracle2 : Nat → Attempt) :
    (strFalsy ho = true ∨ strFalsy uo = true →
       queue db (withSshTarget base ho uo) now newId =
         .error "SSH target requires targetHost and targetUsername" ∧
       queueRpcCommand db (withSshTarget base ho uo) now newId =
         ({ success := false, commandId := none,
            error := some "SSH target requires targetHost and targetUsername" }, db) ∧
       exec { targetType := .ssh, targetHost := ho, targetUsername := uo,
              timeoutMs := tms, retries := rts } sr oracle =
         { success := false, output := none, stderr := none, exitCode := none,
           error := some "SSH target requires targetHost and targetUsername",
           durationMs := none, timedOut := none, attempts := none } ∧
       exec { targetType := .ssh, targetHost := ho, targetUsername := uo,
              timeoutMs := tms, retries := rts } sr oracle =
         exec { targetType := .ssh, targetHost := ho, targetUsername := uo,
                timeoutMs := tms, retries := rts } sr oracle2) ∧
    (strFalsy ho = false → strFalsy uo = false →
       queue db (withSshTarget base ho uo) now newId =
         .ok (db ++ [(newId, mkQueueRecord (withSshTarget base ho uo) now)], newId) ∧
       (queueRpcCommand db (withSshTarget base ho uo) now newId).1.success = true ∧
       exec { targetType := .ssh, targetHost := ho, targetUsername := uo,
              timeoutMs := tms, retries := rts } sr oracle =
         execGo sr (rts.getD 0) (tms.getD 30000) oracle (rts.getD 0 + 1) 0 none) := by
  constructor
  · intro hmiss
    have hinv : sshArgsInvalid .ssh ho uo = true := by
      rcases hmiss with h | h <;> simp [sshArgsInvalid, h]
    exact ⟨by simp [queue, withSshTarget, hinv], by simp [queueRpcCommand, withSshTarget, hinv],
      by simp [exec, hinv], by simp [exec, hinv]⟩
  · intro hh hu
    have hinv : sshArgsInvalid .ssh ho uo = false := by
      simp [sshArgsInvalid, hh, hu]
    exact ⟨by simp [queue, withSshTarget, hinv], by simp [queueRpcCommand, withSshTarget, hinv],
      by simp [exec, hinv]⟩

/-- C4 witness: the missing-host combination is rejected identically by all
three entry points, with no queue attempt made by `exec` even with five
retries configured. -/
theorem ssh_validation_symmetry_witness :
    queue [] (withSshTarget exArgsLocal none (some "root")) 1 0 =
      .error "SSH target requires targetHost and targetUsername" ∧
    queueRpcCommand [] (withSshTarget exArgsLocal none (some "root")) 1 0 =
      ({ success := false, commandId := none,
         error := some "SSH target requires targetHost and targetUsername" }, []) ∧
    exec { targetType := .ssh, targetHost := none, targetUsername := some "root",
           timeoutMs := none, retries := some 5 } (fun _ _ => true) exOracleTerminal =
      { success := false, output := none, stderr := none, exitCode := none,
        error := some "SSH target requires targetHost and targetUsername",
        durationMs := none, timedOut := none, attempts := none } ∧
    exec { targetType := .ssh, targetHost := none, targetUsername := some "root",
           timeoutMs := none, retries := some 5 } (fun _ _ => true) exOracleTerminal =
      exec { targetType := .ssh, targetHost := none, targetUsername := some "root",
             timeoutMs := none, retries := some 5 } (fun _ _ => true) exOracleNotFound :=
  (ssh_validation_symmetry [] 1 0 exArgsLocal none (some "root") none (some 5)
    (fun _ _ => true) exOracleTerminal exOracleNotFound).1 (Or.inl rfl)

theorem pollLoop_skip (sr : String → Nat → Bool) (retries attempt : Nat)
    (lastError : Option String) (benign rest : List PollResponse)
    (hb : ∀ p ∈ benign, p.isDeciding = false) :
    pollLoop sr retries attempt lastError (benign ++ rest) =
      pollLoop sr retries attempt lastError rest := by
  induction benign with
  | nil => rfl
  | cons p tail ih =>
    have hp : p.isDeciding = false := hb p (by simp)
    match p with
    | .throwErr msg => simp [PollResponse.isDeciding] at hp
    | .notFound => simp [PollResponse.isDeciding] at hp
    | .found res =>
      rw [List.cons_append]
      show pollLoop sr retries attempt lastError (.found res :: (tail ++ rest)) = _
      have htail := ih fun q hq => hb q (by simp [hq])
      cases hs : res.status <;> simp_all [PollResponse.isDeciding, pollLoop]

/-- C5: when its polling observes a terminal `completed` or `failed` row,
`exec` returns that final result immediately as a structured value on the
first attempt — never retried and never thrown, for every retry budget and
retry policy — with the success flag equal to
`(status == completed) && (exitCode == 0 || exitCode is absent)`; in
particular a relay-reported failure propagates with `success = false`. -/
theorem exec_terminal_result_authoritative (opts : ExecOptions)
    (sr : String → Nat → Bool) (oracle : Nat → Attempt) (q : QueueRpcResult)
    (benign rest : List PollResponse) (res : CommandResultView)
    (hvalid : sshArgsInvalid opts.targetType opts.targetHost opts.targetUsername = false)
    (hq : (oracle 1).queueResp = .result q) (hqs : q.success = true)
    (hquid : q.commandId ≠ none)
    (hpolls : (oracle 1).polls = benign ++ .found res :: rest)
    (hb : ∀ p ∈ benign, p.isDeciding = false)
    (hterm : res.status = .completed ∨ res.status = .failed) :
    exec opts sr oracle =
      { success := res.status == .completed &&
          (res.exitCode == some 0 || res.exitCode == none),
        output := res.output, stderr := res.stderr, exitCode := res.exitCode,
        error := res.error, durationMs := res.durationMs, timedOut := none,
        attempts := some 1 } ∧
    (res.status = .failed → (exec opts sr oracle).success = false) := by
  have hqid : (q.commandId == none) = false := by
    cases hqc : q.commandId
    · exact absurd hqc hquid
    · rfl
  have hcf : (res.status == CommandStatus.completed || res.status == .failed) = true := by
    rcases hterm with h | h <;> simp [h]
  have hmain : exec opts sr oracle =
      { success := res.status == .completed &&
          (res.exitCode == some 0 || res.exitCode == none),
        output := res.output, stderr := res.stderr, exitCode := res.exitCode,
        error := res.error, durationMs := res.durationMs, timedOut := none,
        attempts := some 1 } := by
    simp only [exec, hvalid, Bool.false_eq_true, if_false, execGo, hq, hqs, hqid,
      Bool.not_true, Bool.or_self, hpolls,
      pollLoop_skip sr (opts.retries.getD 0) 1 none benign (.found res :: rest) hb,
      pollLoop, hcf, if_true]
  refine ⟨hmain, fun hfail => ?_⟩
  rw [hmain]
  simp [hfail]

/-- C5 witness: a command that completes with exit code 0 on the second poll
yields the final result on attempt 1 even with three retries configured. -/
theorem exec_terminal_result_authoritative_witness :
    exec exOptsR3 (fun _ _ => true) exOracleTerminal =
      { success := exCompletedView.status == .completed &&
          (exCompletedView.exitCode == some 0 || exCompletedView.exitCode == none),
        output := exCompletedView.output, stderr := exCompletedView.stderr,
        exitCode := exCompletedView.exitCode, error := exCompletedView.error,
        durationMs := exCompletedView.durationMs, timedOut := none,
        attempts := some 1 } :=
  (exec_terminal_result_authoritative exOptsR3 (fun _ _ => true) exOracleTerminal
    exQueueOk [.found exExecutingView] [] exCompletedView
    (by decide) rfl rfl (by decide) rfl (by decide) (Or.inl rfl)).1

/-- C6: a `{found:false}` poll response — which `getCommandResult` produces
exactly when the command id is absent from the store — makes `exec` return
the failure `error = "Command not found"` immediately after exactly one
queue attempt, never retrying, for every retry budget and retry policy. -/
theorem exec_not_found_no_retry (db : Db) (cid : Nat) (opts : ExecOptions)
    (sr : String → Nat → Bool) (oracle : Nat → Attempt) (q : QueueRpcResult)
    (benign rest : List PollResponse)
    (hmissing : dbGet db cid = none)
    (hvalid : sshArgsInvalid opts.targetType opts.targetHost opts.targetUsername = false)
    (hq : (oracle 1).queueResp = .result q) (hqs : q.success = true)
    (hquid : q.commandId ≠ none)
    (hpolls : (oracle 1).polls = benign ++ .notFound :: rest)
    (hb : ∀ p ∈ benign, p.isDeciding = false) :
    getCommandResult db cid = none ∧
    exec opts sr oracle =
      { success := false, output := none, stderr := none, exitCode := none,
        error := some "Command not found", durationMs := none, timedOut := none,
        attempts := some 1 } := by
  have hqid : (q.commandId == none) = false := by
    cases hqc : q.commandId
    · exact absurd hqc hquid
    · rfl
  refine ⟨by simp [getCommandResult, hmissing], ?_⟩
  simp only [exec, hvalid, Bool.false_eq_true, if_false, execGo, hq, hqs, hqid,
    Bool.not_true, Bool.or_self, hpolls,
    pollLoop_skip sr (opts.retries.getD 0) 1 none benign (.notFound :: rest) hb,
    pollLoop]

/-- C6 witness: with five retries configured, a not-found poll on the first
attempt still ends `exec` after exactly one queue attempt. -/
theorem exec_not_found_no_retry_witness :
    getCommandResult [] 0 = none ∧
    exec exOptsR5 (fun _ _ => true) exOracleNotFound =
      { success := false, output := none, stderr := none, exitCode := none,
        error := some "Command not found", durationMs := none, timedOut := none,
        attempts := some 1 } :=
  exec_not_found_no_retry [] 0 exOptsR5 (fun _ _ => true) exOracleNotFound
    exQueueOk [.found exExecutingView] [] rfl (by decide) rfl rfl (by decide)
    rfl (by decide)

/-- C7: for every machine id and limit, the pull queries return only
commands of that machine in status `pending` — `listPending` at most
`limit ?? 10` of them and `getPendingCommands` at most 10 — and, when the
store is in ascending creation order, the returned lists are in strictly
ascending creation order, so a command created earlier appears before one
created later while both are pending (FIFO per machine). -/
theorem listPending_fifo (db : Db) (m : String) (limit : Option Nat)
    (hsorted : List.Pairwise
      (fun a b : Nat × CommandRecord => a.2.createdAt < b.2.createdAt) db) :
    (∀ v ∈ listPending db m limit, v.machineId = m ∧ v.status = .pending) ∧
    (listPending db m limit).length ≤ limit.getD 10 ∧
    List.Pairwise (fun a b : ListPendingView => a.createdAt < b.createdAt)
      (listPending db m limit) ∧
    (∀ v ∈ getPendingCommands db m, ∃ p ∈ db, p.2.machineId = m ∧
       p.2.status = .pending ∧ v.id = p.1 ∧ v.command = p.2.command ∧
       v.createdAt = p.2.createdAt) ∧
    (getPendingCommands db m).length ≤ 10 ∧
    List.Pairwise (fun a b : PendingView => a.createdAt < b.createdAt)
      (getPendingCommands db m) := by
  have hsub : ∀ n, List.Sublist (pendingQuery db m n) db := fun n =>
    List.Sublist.trans (List.take_sublist n _) (List.filter_sublist db)
  have hmemq : ∀ n p, p ∈ pendingQuery db m n →
      p.2.machineId = m ∧ p.2.status = CommandStatus.pending := by
    intro n p hp
    have hp2 := (List.mem_filter.mp (List.mem_of_mem_take hp)).2
    simpa [isPendingFor] using hp2
  have hpw : ∀ n, List.Pairwise
      (fun a b : Nat × CommandRecord => a.2.createdAt < b.2.createdAt)
      (pendingQuery db m n) := fun n => List.Pairwise.sublist (hsub n) hsorted
  refine ⟨?_, ?_, ?_, ?_, ?_, ?_⟩
  · intro v hv
    obtain ⟨p, hp, rfl⟩ := List.mem_map.mp hv
    exact hmemq (limit.getD 10) p hp
  · simp [listPending, pendingQuery]
  · exact List.pairwise_map.mpr ((hpw (limit.getD 10)).imp fun h => h)
  · intro v hv
    obtain ⟨p, hp, rfl⟩ := List.mem_map.mp hv
    have h1 := hmemq 10 p hp
    exact ⟨p, (hsub 10).subset hp, h1.1, h1.2, rfl, rfl, rfl⟩
  · simp [getPendingCommands, pendingQuery]
  · exact List.pairwise_map.mpr ((hpw 10).imp fun h => h)

/-- C7 witness: a store with two pending commands created at times 1 and 2
yields pull-query results within the limits and in strictly ascending
creation order. -/
theorem listPending_fifo_witness :
    (listPending exDbTwo "m1" none).length ≤ (none : Option Nat).getD 10 ∧
    List.Pairwise (fun a b : ListPendingView => a.createdAt < b.createdAt)
      (listPending exDbTwo "m1" none) ∧
    (getPendingCommands exDbTwo "m1").length ≤ 10 ∧
    List.Pairwise (fun a b : PendingView => a.createdAt < b.createdAt)
      (getPendingCommands exDbTwo "m1") :=
  ⟨(listPending_fifo exDbTwo "m1" none (by decide)).2.1,
   (listPending_fifo exDbTwo "m1" none (by decide)).2.2.1,
   (listPending_fifo exDbTwo "m1" none (by decide)).2.2.2.2.1,
   (listPending_fifo exDbTwo "m1" none (by decide)).2.2.2.2.2⟩

theorem isTerminal_beq (s : CommandStatus) :
    (s == CommandStatus.completed || s == CommandStatus.failed ||
      s == CommandStatus.timeout) = s.isTerminal := by
  cases s <;> rfl

/-- C8: a `getCommandStream` read never surfaces the partial output fields
(`partialOutput`, `partialStderr`) once the command's status is terminal,
and never surfaces the final result fields (`output`, `stderr`, `exitCode`,
`error`) while the status is non-terminal; the surfaced status is the
stored status. -/
theorem stream_visibility_partition (db : Db) (cid : Nat) (off : Option Int)
    (v : StreamView) (hv : getCommandStream db cid off = some v) :
    (v.status.isTerminal = true →
       v.partialOutput = none ∧ v.partialStderr = none ∧ v.done = true) ∧
    (v.status.isTerminal = false →
       v.output = none ∧ v.stderr = none ∧ v.exitCode = none ∧ v.error = none ∧
       v.done = false) ∧
    (∀ r, dbGet db cid = some r → v.status = r.status) := by
  cases hget : dbGet db cid with
  | none =>
    simp only [getCommandStream, hget] at hv
    exact Option.noConfusion hv
  | some cmd =>
    simp only [getCommandStream, hget] at hv
    split at hv
    · rename_i hcond
      injection hv with hv
      subst hv
      refine ⟨fun _ => ⟨rfl, rfl, rfl⟩, fun hnt => ?_, fun r hr => ?_⟩
      · rw [show StreamView.status _ = cmd.status from rfl, ← isTerminal_beq,
          hcond] at hnt
        exact Bool.noConfusion hnt
      · injection hr with hr
        rw [hr]
    · rename_i hcond
      injection hv with hv
      subst hv
      refine ⟨fun ht => ?_, fun _ => ⟨rfl, rfl, rfl, rfl, rfl⟩, fun r hr => ?_⟩
      · rw [show StreamView.status _ = cmd.status from rfl, ← isTerminal_beq] at ht
        exact absurd ht hcond
      · injection hr with hr
        rw [hr]

/-- C8 witness: reading the completed sample command surfaces no partial
fields and is marked done. -/
theorem stream_visibility_partition_witness :
    exStreamViewT.partialOutput = none ∧ exStreamViewT.partialStderr = none ∧
    exStreamViewT.done = true :=
  (stream_visibility_partition exDbTerminal 0 (some 3) exStreamViewT
    (by decide)).1 (by decide)

/-- C9: every record inserted by `queue` or `queueRpcCommand` is the same
`mkQueueRecord`, whose targetPort is always defined: when the caller omits
targetPort, the stored value is 22 for every target type — `local`
commands included, not only ssh. -/
theorem queue_default_port (db : Db) (args : QueueArgs) (now newId : Nat)
    (hport : args.targetPort = none)
    (hvalid : sshArgsInvalid args.targetType args.targetHost args.targetUsername
      = false) :
    queue db args now newId = .ok (db ++ [(newId, mkQueueRecord args now)], newId) ∧
    queueRpcCommand db args now newId =
      ({ success := true, commandId := some newId, error := none },
        db ++ [(newId, mkQueueRecord args now)]) ∧
    (mkQueueRecord args now).targetPort = some 22 ∧
    (mkQueueRecord args now).targetPort ≠ none := by
  refine ⟨by simp [queue, hvalid], by simp [queueRpcCommand, hvalid], ?_, ?_⟩
  · simp [mkQueueRecord, hport]
  · simp [mkQueueRecord]

/-- C9 witness: a local command queued without a targetPort stores port 22. -/
theorem queue_default_port_witness :
    queue [] exArgsLocal 1 0 = .ok ([] ++ [(0, mkQueueRecord exArgsLocal 1)], 0) ∧
    queueRpcCommand [] exArgsLocal 1 0 =
      ({ success := true, commandId := some 0, error := none },
        [] ++ [(0, mkQueueRecord exArgsLocal 1)]) ∧
    (mkQueueRecord exArgsLocal 1).targetPort = some 22 ∧
    (mkQueueRecord exArgsLocal 1).targetPort ≠ none :=
  queue_default_port [] exArgsLocal 1 0 rfl rfl

/-- C10: the outputOffset argument of `getCommandStream` slices only
`partialOutput` — `partialStderr` is always returned whole — and has no
effect once the command is terminal: the read equals the offset-free read
and the final output and stderr are returned in full for every offset. -/
theorem stream_offset_scope (db : Db) (cid : Nat) (off : Int)
    (r : CommandRecord) (hget : dbGet db cid = some r) :
    (r.status.isTerminal = true →
       getCommandStream db cid (some off) = getCommandStream db cid none ∧
       (getCommandStream db cid (some off)).map StreamView.output = some r.output ∧
       (getCommandStream db cid (some off)).map StreamView.stderr = some r.stderr) ∧
    (r.status.isTerminal = false →
       (getCommandStream db cid (some off)).map StreamView.partialStderr =
         some r.partialStderr ∧
       (∀ s, r.partialOutput = some s → s ≠ "" →
          (getCommandStream db cid (some off)).map StreamView.partialOutput =
            some (some (jsSlice s off)))) := by
  constructor
  · intro ht
    have hc : (r.status == CommandStatus.completed || r.status == .failed ||
        r.status == .timeout) = true := by rw [isTerminal_beq, ht]
    refine ⟨?_, ?_, ?_⟩ <;> simp [getCommandStream, hget, hc]
  · intro hnt
    have hc : (r.status == CommandStatus.completed || r.status == .failed ||
        r.status == .timeout) = false := by rw [isTerminal_beq, hnt]
    constructor
    · simp [getCommandStream, hget, hc]
    · intro s hs hsne
      have hse : (s == "") = false := by simp [hsne]
      simp [getCommandStream, hget, hc, hs, hse]

/-- C10 witness: for an executing command with partial output "abcdef" and
offset 2, the read returns the partial stderr whole and the partial output
sliced from index 2. -/
theorem stream_offset_scope_witness :
    (getCommandStream exDbExec 0 (some 2)).map StreamView.partialStderr =
      some exExecRec.partialStderr ∧
    (getCommandStream exDbExec 0 (some 2)).map StreamView.partialOutput =
      some (some (jsSlice "abcdef" 2)) :=
  ⟨((stream_offset_scope exDbExec 0 2 exExecRec (by decide)).2 (by decide)).1,
   ((stream_offset_scope exDbExec 0 2 exExecRec (by decide)).2 (by decide)).2
     "abcdef" (by decide) (by decide)⟩

end RemoteCmdRelay
